import Mathlib

/-!
Shallow embedding of the nacp admission-control proxy (ncode/nacp) and proofs
about its behaviour.  Pure logic is translated from `cmd/nacp/nacp.go`,
`admissionctrl/validator/webhook_validator.go` and
`admissionctrl/mutator/json_patch_webhook.go`; parts of the repository that are
not in scope as source (the `admissionctrl` pipeline, the `types.Payload`
encoding) and external libraries (go-multierror, the nomad helper, gzip,
encoding/json, RFC-6902 json-patch) are modelled from the specification, each
marked in its doc comment.
-/

namespace Nacp

/-! ## Multi-error and warning formatting -/

/-- Modelled from the spec: the multi-error wire format (the go-multierror
default list format), which "flattens to a newline-joined string at the wire
boundary". -/
def multierrorText (es : List String) : String :=
  match es with
  | [e] => "1 error occurred:\n\t* " ++ e ++ "\n\n"
  | _ =>
    toString es.length ++ " errors occurred:\n\t" ++
      String.intercalate "\n\t" (es.map (fun e => "* " ++ e)) ++ "\n\n"

/-- A Go `error` value as the proxy distinguishes them: either a
go-multierror aggregate (a list of sub-error messages) or a plain error with a
message. -/
inductive GoErr where
  | multi (errs : List String)
  | plain (msg : String)
deriving DecidableEq, Repr

/-- `Error()` on a `GoErr`: multierror formats its entries, a plain error
yields its message. -/
def GoErr.text : GoErr → String
  | .multi es => multierrorText es
  | .plain m => m

/-- One bulleted line per warning, in order (the loop body of the nomad
warnings formatter). -/
def bulletConcat : List String → String
  | [] => ""
  | e :: rest => "\n\n* " ++ e ++ bulletConcat rest

/-- Modelled from the spec: the upstream's multi-warning format (nomad
`helper.MergeMultierrorWarnings` with its warnings formatter): a count header
followed by one bulleted entry per warning. -/
def warningsFormatter (es : List String) : String :=
  toString es.length ++ " warning(s):" ++ bulletConcat es

/-- Modelled from the spec: nomad `helper.MergeMultierrorWarnings` applied to
one multierror value: it flattens the entries and serializes them with the
warnings formatter. -/
def MergeMultierrorWarnings (entries : List String) : String :=
  warningsFormatter entries

/-- `buildFullWarningMsg` from `cmd/nacp/nacp.go`: start from an empty
multierror, append the upstream `Warnings` string as one entry when it is
non-empty (the Go code discards `multierror.Append`'s return value on that
line, but `Append` mutates the receiver in place, so the entry is kept),
append every local warning, and serialize with the upstream's multi-warning
format. -/
def buildFullWarningMsg (upstreamResponseWarnings : String) (warnings : List String) : String :=
  let allWarnings : List String := []
  let allWarnings :=
    if upstreamResponseWarnings ≠ "" then allWarnings ++ [upstreamResponseWarnings]
    else allWarnings
  let allWarnings := allWarnings ++ warnings
  MergeMultierrorWarnings allWarnings

/-! ## Route classifier -/

def isAsciiLowerCh (c : Char) : Bool := 'a' ≤ c && c ≤ 'z'
def isAsciiUpperCh (c : Char) : Bool := 'A' ≤ c && c ≤ 'Z'
def isAsciiDigitCh (c : Char) : Bool := '0' ≤ c && c ≤ '9'

/-- The character class `[a-zA-Z]` opening `jobPathRegex` and
`jobPlanPathRegex` in `cmd/nacp/nacp.go`. -/
def jobNameHeadClass (c : Char) : Bool := isAsciiLowerCh c || isAsciiUpperCh c

/-- The character class `[a-z-Z0-9\-]` of `jobPathRegex`, as the RE2 engine
parses it: the range `a-z`, the literal `-`, the literal `Z`, the range
`0-9`, and the escaped literal `-`.  (It does not contain the uppercase
letters `A`-`Y`.) -/
def jobNameTailClass (c : Char) : Bool :=
  isAsciiLowerCh c || c == '-' || c == 'Z' || isAsciiDigitCh c

/-- The language of `[a-zA-Z]+[a-z-Z0-9\-]*`: some split of the name into a
non-empty prefix of letters and a suffix of tail-class characters. -/
def jobNameMatch (s : List Char) : Bool :=
  (List.range (s.length + 1)).any fun i =>
    decide (0 < i) && (s.take i).all jobNameHeadClass && (s.drop i).all jobNameTailClass

/-- `jobPathRegex = ^/v1/job/[a-zA-Z]+[a-z-Z0-9\-]*$` as used by
`regexp.MatchString`; the pattern is anchored on both ends, so it holds of the
whole path. -/
def jobPathRegexMatch (p : String) : Bool :=
  "/v1/job/".data.isPrefixOf p.data && jobNameMatch (p.data.drop 8)

/-- `jobPlanPathRegex = ^/v1/job/[a-zA-Z]+[a-z-Z0-9\-]*/plan$`: the path is
`/v1/job/`, a job name in the language above, then the literal `/plan`. -/
def jobPlanPathRegexMatch (p : String) : Bool :=
  "/v1/job/".data.isPrefixOf p.data &&
    (List.range ((p.data.drop 8).length + 1)).any fun i =>
      jobNameMatch ((p.data.drop 8).take i) && decide ((p.data.drop 8).drop i = "/plan".data)

/-- `isCreate` from `cmd/nacp/nacp.go`. -/
def isCreate (method path : String) : Bool :=
  (method == "PUT" || method == "POST") && path == "/v1/jobs"

/-- `isUpdate` from `cmd/nacp/nacp.go`. -/
def isUpdate (method path : String) : Bool :=
  (method == "PUT" || method == "POST") && jobPathRegexMatch path

/-- `isRegister` from `cmd/nacp/nacp.go`. -/
def isRegister (method path : String) : Bool :=
  isCreate method path || isUpdate method path

/-- `isPlan` from `cmd/nacp/nacp.go`. -/
def isPlan (method path : String) : Bool :=
  (method == "PUT" || method == "POST") && jobPlanPathRegexMatch path

/-- `isValidate` from `cmd/nacp/nacp.go`. -/
def isValidate (method path : String) : Bool :=
  (method == "PUT" || method == "POST") && path == "/v1/validate/job"

/-- The claim's job-name language, following the claim's words: one letter
followed by letters, digits and hyphens in any order
(`^/v1/job/[A-Za-z][A-Za-z0-9-]*$`). -/
def claimJobNameClass (c : Char) : Bool :=
  jobNameHeadClass c || isAsciiDigitCh c || c == '-'

/-- The claim's register-path predicate, following the claim's words. -/
def claimJobPathMatch (p : String) : Bool :=
  "/v1/job/".data.isPrefixOf p.data &&
    match p.data.drop 8 with
    | [] => false
    | c :: rest => jobNameHeadClass c && rest.all claimJobNameClass

/-- The claim's `Register` rule, following the claim's words. -/
def claimIsRegister (method path : String) : Bool :=
  (method == "PUT" || method == "POST") &&
    (path == "/v1/jobs" || claimJobPathMatch path)

/-! ## JSON documents and RFC-6902 patching -/

/-- A JSON document; the pipeline treats jobs as opaque JSON values
(spec §3). -/
inductive Json where
  | null : Json
  | boolean (b : Bool) : Json
  | num (n : Int) : Json
  | str (s : String) : Json
  | arr (elems : List Json) : Json
  | obj (fields : List (String × Json)) : Json
deriving Repr

/-- First value bound to a key in a JSON object. -/
def lookupField : List (String × Json) → String → Option Json
  | [], _ => none
  | (k, v) :: rest, key => if k = key then some v else lookupField rest key

/-- Replace the value of a key in a JSON object, or append the pair. -/
def setField : List (String × Json) → String → Json → List (String × Json)
  | [], key, v => [(key, v)]
  | (k, w) :: rest, key, v =>
    if k = key then (key, v) :: rest else (k, w) :: setField rest key v

/-- Modelled from the spec: the RFC-6902 `add` operation (the external
evanphx/json-patch library) on object documents: an empty path replaces the
whole document, otherwise the path is followed through object members and the
final member is set; a missing intermediate member is an error. -/
def jsonAdd : Json → List String → Json → Option Json
  | _, [], v => some v
  | .obj fs, [k], v => some (.obj (setField fs k v))
  | .obj fs, k :: rest, v =>
    match lookupField fs k with
    | none => none
    | some cur =>
      match jsonAdd cur rest v with
      | none => none
      | some cur' => some (.obj (setField fs k cur'))
  | _, _ :: _, _ => none

/-- One JSON-Patch operation, with the pointer already split into reference
tokens (e.g. `/Meta` becomes `["Meta"]`). -/
structure PatchOp where
  op : String
  path : List String
  value : Json

/-- Modelled from the spec: applying an RFC-6902 patch, operation by
operation; only `add` is exercised by the claims, other operations are out of
scope here. -/
def applyPatch : List PatchOp → Json → Option Json
  | [], doc => some doc
  | p :: rest, doc =>
    if p.op = "add" then
      match jsonAdd doc p.path p.value with
      | none => none
      | some doc' => applyPatch rest doc'
    else none

/-- All members of a JSON object read as strings (the decode of a Go
`map[string]string`). -/
def strFields : List (String × Json) → Option (List (String × String))
  | [] => some []
  | (k, .str s) :: rest => (strFields rest).map (fun m => (k, s) :: m)
  | _ => none

/-- The fields of nomad's `api.Job` that the pipeline touches (spec §3: a
stable `ID` and a mutable `Meta` mapping). -/
structure ApiJob where
  ID : Option String
  Meta : Option (List (String × String))
deriving DecidableEq, Repr

/-- Modelled from the spec: `json.Unmarshal` of a document into `api.Job`
(nomad api + encoding/json, external), restricted to the fields the pipeline
touches; keys that name no Job field are ignored, as Go's decoder ignores
unknown keys. -/
def unmarshalJob : Json → Option ApiJob
  | .obj fs =>
    let idF : Option (Option String) :=
      match lookupField fs "ID" with
      | none => some none
      | some .null => some none
      | some (.str s) => some (some s)
      | some _ => none
    let metaF : Option (Option (List (String × String))) :=
      match lookupField fs "Meta" with
      | none => some none
      | some .null => some none
      | some (.obj mfs) => (strFields mfs).map some
      | some _ => none
    match idF, metaF with
    | some i, some m => some ⟨i, m⟩
    | _, _ => none
  | _ => none

/-! ## Token resolution context -/

/-- The part of nomad's `api.ACLToken` the proxy reads. -/
structure ACLToken where
  AccessorID : String
deriving DecidableEq, Repr

/-- `config.RequestContext` as the proxy populates it. -/
structure RequestContext where
  clientIP : String
  accessorID : String
  tokenInfo : Option ACLToken
deriving DecidableEq, Repr

/-! ## The JSON-Patch webhook mutator -/

/-- Modelled from the spec: the JSON encoding of `types.Payload` ("the JSON
encoding of the Payload (job + context)"; the `types` package is not under
src).  The job document sits under the `job` key of an enclosing object. -/
def payloadJson (job : Json) (reqCtx : Option Json) : Json :=
  .obj [("job", job), ("context", reqCtx.getD .null)]

/-- The decoded reply of a mutator webhook
(`{"patch": [...], "warnings": [...], "errors": [...]}`). -/
structure JsonPatchWebhookReply where
  patch : List PatchOp
  warnings : List String
  errors : List String

/-- `JsonPatchWebhookMutator.Mutate` from
`admissionctrl/mutator/json_patch_webhook.go`, with the HTTP exchange
abstracted to the decoded webhook reply: the source marshals the whole
payload into `jobJson`, applies the reply's JSON-Patch to those bytes, and
unmarshals the patched bytes as an `api.Job`.  (The reply's `errors` field is
never read by the source.) -/
def JsonPatchWebhookMutator.Mutate (reply : JsonPatchWebhookReply) (job : Json)
    (reqCtx : Option Json) : Except String (ApiJob × List String) :=
  let jobJson := payloadJson job reqCtx
  let warnings := reply.warnings
  match applyPatch reply.patch jobJson with
  | none => .error "patch apply error"
  | some patchedJobJson =>
    match unmarshalJob patchedJobJson with
    | none => .error "unmarshal error"
    | some patchedJob => .ok (patchedJob, warnings)

/-! ## The admission pipeline (modelled from the spec) -/

/-- The unit flowing through the pipeline (spec §3). -/
structure Payload where
  job : Json
  context : Option RequestContext

/-- A mutator stage: `Mutate(payload) → (job, warnings, hardError?)`; a nil
job with no error is a no-op. -/
abbrev Mutator := Payload → Option Json × List String × Option GoErr

/-- A validator stage: `Validate(payload) → (warnings, hardError?)`. -/
abbrev Validator := Payload → List String × Option GoErr

/-- Modelled from the spec (§4.7; the `admissionctrl` pipeline package is not
under src): run the mutators in configuration order, each seeing the previous
mutator's job (a nil job is a no-op), appending warnings; on the first hard
error stop, returning the pre-stage job, the warnings gathered so far, and
the error. -/
def AdmissionMutatorsGo : List Mutator → Json → Option RequestContext → List String →
    Json × List String × Option GoErr
  | [], job, _, ws => (job, ws, none)
  | m :: rest, job, ctx, ws =>
    match m ⟨job, ctx⟩ with
    | (j', w, none) => AdmissionMutatorsGo rest (j'.getD job) ctx (ws ++ w)
    | (_, _, some e) => (job, ws, some e)

/-- `JobHandler.AdmissionMutators`, modelled from the spec (§4.7 step 2). -/
def AdmissionMutators (ms : List Mutator) (p : Payload) :
    Json × List String × Option GoErr :=
  AdmissionMutatorsGo ms p.job p.context []

/-- Modelled from the spec (§4.7 step 3): run the validators in order,
appending warnings; on the first hard error stop, returning the warnings
gathered so far (the failing stage contributes none) and the error. -/
def AdmissionValidatorsGo : List Validator → Payload → List String →
    List String × Option GoErr
  | [], _, ws => (ws, none)
  | v :: rest, p, ws =>
    match v p with
    | (w, none) => AdmissionValidatorsGo rest p (ws ++ w)
    | (_, some e) => (ws, some e)

/-- `JobHandler.AdmissionValidators`, modelled from the spec (§4.7 step 3). -/
def AdmissionValidators (vs : List Validator) (p : Payload) :
    List String × Option GoErr :=
  AdmissionValidatorsGo vs p []

/-- `JobHandler.ApplyAdmissionControllers`, modelled from the spec (§4.7):
mutators, then validators, short-circuiting on the first hard error. -/
def ApplyAdmissionControllers (ms : List Mutator) (vs : List Validator) (p : Payload) :
    Json × List String × Option GoErr :=
  match AdmissionMutators ms p with
  | (job, ws, some e) => (job, ws, some e)
  | (job, ws, none) =>
    match AdmissionValidators vs ⟨job, p.context⟩ with
    | (ws2, some e) => (job, ws ++ ws2, some e)
    | (ws2, none) => (job, ws ++ ws2, none)

/-! ## Request-path handlers -/

/-- What the request-path handlers stash on the request's scoped context. -/
structure ScopedCtx where
  warnings : Option (List String)
  validationError : Option GoErr
deriving DecidableEq, Repr

/-- `handleRegister` from `cmd/nacp/nacp.go`, with the envelope decode
abstracted to an `Option` (`none` = malformed body): on a pipeline hard error
the wrapped error is returned; on success the mutated job and, when
non-empty, the warnings for the scoped context. -/
def handleRegister (ms : List Mutator) (vs : List Validator) (decoded : Option Json)
    (reqCtx : Option RequestContext) : Except GoErr (Json × Option (List String)) :=
  match decoded with
  | none => .error (.plain "failed decoding job, skipping admission controller")
  | some job =>
    match ApplyAdmissionControllers ms vs ⟨job, reqCtx⟩ with
    | (_, _, some e) =>
      .error (.plain ("admission controllers send an error, returning error: " ++ e.text))
    | (job', warnings, none) =>
      .ok (job', if warnings.length > 0 then some warnings else none)

/-- `handlePlan` from `cmd/nacp/nacp.go`; structurally the same as
`handleRegister` on the plan envelope. -/
def handlePlan (ms : List Mutator) (vs : List Validator) (decoded : Option Json)
    (reqCtx : Option RequestContext) : Except GoErr (Json × Option (List String)) :=
  match decoded with
  | none => .error (.plain "failed decoding job, skipping admission controller")
  | some job =>
    match ApplyAdmissionControllers ms vs ⟨job, reqCtx⟩ with
    | (_, _, some e) =>
      .error (.plain ("admission controllers send an error, returning error: " ++ e.text))
    | (job', warnings, none) =>
      .ok (job', if warnings.length > 0 then some warnings else none)

/-- `handleValidate` from `cmd/nacp/nacp.go`: run the mutators (a hard error
is returned and aborts the request), then the validators, whose error is
stashed on the scoped context; the warning lists are concatenated by
`append(validateWarnings, mutateWarnings...)`, i.e. validator warnings first,
and stashed when non-empty. -/
def handleValidate (ms : List Mutator) (vs : List Validator) (decoded : Option Json)
    (reqCtx : Option RequestContext) : Except GoErr (Json × ScopedCtx) :=
  match decoded with
  | none => .error (.plain "failed decoding job")
  | some job =>
    match AdmissionMutators ms ⟨job, reqCtx⟩ with
    | (_, _, some e) => .error e
    | (job', mutateWarnings, none) =>
      let validated := AdmissionValidators vs ⟨job', reqCtx⟩
      let validateWarnings := validated.1 ++ mutateWarnings
      .ok (job', {
        warnings := if validateWarnings.length > 0 then some validateWarnings else none,
        validationError := validated.2 })

/-- The per-request outcome at the proxy: either `writeError` replied with a
status and body and no upstream request is issued, or the (rewritten) request
is forwarded upstream with `r`. -/
inductive ProxyOutcome (ρ : Type) where
  | errorResponse (status : Nat) (body : String)
  | forwarded (r : ρ)
deriving DecidableEq, Repr

/-- The register branch of the proxy handler in `NewProxyHandler`: a handler
error goes to `writeError` (HTTP 500, the error text as body) and nothing is
forwarded; otherwise the proxy serves the rewritten request. -/
def processRegister (ms : List Mutator) (vs : List Validator) (decoded : Option Json)
    (reqCtx : Option RequestContext) : ProxyOutcome (Json × Option (List String)) :=
  match handleRegister ms vs decoded reqCtx with
  | .error e => .errorResponse 500 e.text
  | .ok x => .forwarded x

/-- The plan branch of the proxy handler in `NewProxyHandler`. -/
def processPlan (ms : List Mutator) (vs : List Validator) (decoded : Option Json)
    (reqCtx : Option RequestContext) : ProxyOutcome (Json × Option (List String)) :=
  match handlePlan ms vs decoded reqCtx with
  | .error e => .errorResponse 500 e.text
  | .ok x => .forwarded x

/-! ## Validate response rewriting -/

/-- The fields of `api.JobValidateResponse` that the proxy rewrites. -/
structure ValidateResponse where
  Warnings : String
  ValidationErrors : List String
  Error : String
deriving DecidableEq, Repr

/-- Result of the response-modifier hook on the validate route. -/
inductive ValidateRespResult where
  | unchanged
  | rewritten (r : ValidateResponse)
  | panicked
deriving DecidableEq, Repr

/-- `handleJobValdidateResponse` from `cmd/nacp/nacp.go` (name as in the
source), with the body decode abstracted to the decoded upstream response
(gzip handling is modelled with the register handler, C7).  When the stashed
validation error is a go-multierror its entries become `ValidationErrors` and
its formatted text becomes `Error`; in the other branch the source
dereferences the (nil) reader-error variable — modelled as `panicked`. -/
def handleJobValdidateResponse (sctx : ScopedCtx) (upstream : ValidateResponse) :
    ValidateRespResult :=
  if sctx.validationError.isNone ∧ sctx.warnings.isNone then .unchanged
  else
    let withErr : Option ValidateResponse :=
      match sctx.validationError with
      | none => some upstream
      | some (.multi es) =>
        some { upstream with ValidationErrors := es, Error := multierrorText es }
      | some (.plain _) => none
    match withErr with
    | none => .panicked
    | some r =>
      let ws := sctx.warnings.getD []
      .rewritten
        (if ws.length > 0 then { r with Warnings := buildFullWarningMsg r.Warnings ws }
         else r)

/-- The validate branch of the proxy handler end to end: request rewriting,
the forward decision, and the response-modifier hook. -/
def processValidate (ms : List Mutator) (vs : List Validator) (decoded : Option Json)
    (reqCtx : Option RequestContext) (upstream : ValidateResponse) :
    ProxyOutcome ValidateRespResult :=
  match handleValidate ms vs decoded reqCtx with
  | .error e => .errorResponse 500 e.text
  | .ok x => .forwarded (handleJobValdidateResponse x.2 upstream)

/-! ## The webhook validator -/

/-- The decoded reply of a validator webhook
(`{"errors": [...], "warnings": [...]}`). -/
structure WebhookValidatorReply where
  errors : List String
  warnings : List String
deriving DecidableEq, Repr

/-- `multierror.Append` of one plain error onto an aggregate (the loop body
of the webhook validator): one more entry at the end. -/
def multiAppend (m : List String) (e : String) : List String := m ++ [e]

/-- `WebhookValidator.Validate` from
`admissionctrl/validator/webhook_validator.go`, with the HTTP exchange
abstracted to the decoded webhook reply: a non-empty `errors` list is folded
into one multierror and returned with a nil warning list; otherwise the
reply's warnings are returned. -/
def WebhookValidator.Validate (reply : WebhookValidatorReply) :
    List String × Option GoErr :=
  if reply.errors.length > 0 then
    ([], some (.multi (reply.errors.foldl multiAppend [])))
  else if reply.warnings.length > 0 then
    (reply.warnings, none)
  else
    (reply.warnings, none)

/-! ## Response rewriting and gzip -/

/-- The fields of `api.JobRegisterResponse` the proxy touches. -/
structure RegisterResponse where
  Warnings : String
deriving DecidableEq, Repr

/-- The fields of `api.JobPlanResponse` the proxy touches. -/
structure PlanResponse where
  Warnings : String
deriving DecidableEq, Repr

/-- An upstream HTTP response as the response rewriter sees it. -/
structure HttpResponse where
  contentEncoding : String
  contentLengthHeader : String
  contentLength : Int
  body : List Char
deriving DecidableEq, Repr

/-- Modelled from the spec: an `encoding/json` round-trip on an upstream
envelope (external library): encoding is injective and decoding inverts it. -/
structure Codec (α : Type) where
  enc : α → List Char
  dec : List Char → Option α
  dec_enc : ∀ a, dec (enc a) = some a

/-- Modelled from the spec: the gzip content-encoding round-trip (the
external compress/gzip library): decompression inverts compression. -/
structure GzipCodec where
  compress : List Char → List Char
  decompress : List Char → Option (List Char)
  decompress_compress : ∀ b, decompress (compress b) = some b

/-- `checkIfGzipAndTransformReader` from `cmd/nacp/nacp.go`: gzip is detected
by `Content-Encoding: gzip` exactly; a gzip body that fails to open is an
error, otherwise the reader yields the (possibly decompressed) bytes. -/
def checkIfGzipAndTransformReader (gz : GzipCodec) (resp : HttpResponse) :
    Except String (Bool × List Char) :=
  let isGzip := resp.contentEncoding == "gzip"
  if isGzip then
    match gz.decompress resp.body with
    | none => .error "gzip: invalid header"
    | some b => .ok (true, b)
  else .ok (false, resp.body)

/-- `rewriteResponse` from `cmd/nacp/nacp.go`: swap in the new body and set
both the `Content-Length` header and the response `ContentLength` to its
byte count. -/
def rewriteResponse (resp : HttpResponse) (data : List Char) : HttpResponse :=
  { resp with
    contentLengthHeader := toString data.length,
    contentLength := (data.length : Int),
    body := data }

/-- `rewriteResponseGzip` from `cmd/nacp/nacp.go`: compress the new body and
set both length fields to the compressed byte count. -/
def rewriteResponseGzip (gz : GzipCodec) (resp : HttpResponse) (data : List Char) :
    HttpResponse :=
  let compressed := gz.compress data
  { resp with
    contentLengthHeader := toString compressed.length,
    contentLength := (compressed.length : Int),
    body := compressed }

/-- `handRegisterResponse` from `cmd/nacp/nacp.go` (name as in the source):
when the scoped context holds no warnings return immediately without touching
the response; otherwise gunzip if needed, decode, merge the warnings into
`.Warnings`, re-encode, and rewrite (re-gzipping when the upstream was
gzipped). -/
def handRegisterResponse (jc : Codec RegisterResponse) (gz : GzipCodec)
    (ctxWarnings : Option (List String)) (resp : HttpResponse) :
    Except String HttpResponse :=
  let warnings := ctxWarnings.getD []
  let ok := ctxWarnings.isSome
  if ¬ok ∧ warnings.length = 0 then .ok resp
  else
    match checkIfGzipAndTransformReader gz resp with
    | .error e => .error e
    | .ok (isGzip, bytes) =>
      match jc.dec bytes with
      | none => .error "response decode error"
      | some response =>
        let response := { response with
          Warnings := buildFullWarningMsg response.Warnings warnings }
        let responseData := jc.enc response
        .ok (if isGzip then rewriteResponseGzip gz resp responseData
             else rewriteResponse resp responseData)

/-- `handleJobPlanResponse` from `cmd/nacp/nacp.go`; structurally the same as
`handRegisterResponse` on `api.JobPlanResponse`. -/
def handleJobPlanResponse (jc : Codec PlanResponse) (gz : GzipCodec)
    (ctxWarnings : Option (List String)) (resp : HttpResponse) :
    Except String HttpResponse :=
  let warnings := ctxWarnings.getD []
  let ok := ctxWarnings.isSome
  if ¬ok ∧ warnings.length = 0 then .ok resp
  else
    match checkIfGzipAndTransformReader gz resp with
    | .error e => .error e
    | .ok (isGzip, bytes) =>
      match jc.dec bytes with
      | none => .error "response decode error"
      | some response =>
        let response := { response with
          Warnings := buildFullWarningMsg response.Warnings warnings }
        let responseData := jc.enc response
        .ok (if isGzip then rewriteResponseGzip gz resp responseData
             else rewriteResponse resp responseData)

/-! ## Token resolution -/

/-- `resolveTokenAccessor` from `cmd/nacp/nacp.go`, with the upstream call
abstracted to either a transport error or a (status, body) pair and the
ACL-token JSON decode (encoding/json, external) abstracted to `aclDec`.  The
second component records whether an upstream request was issued: the source
returns before `client.Do` when the token is empty. -/
def resolveTokenAccessor (aclDec : List Char → Option ACLToken)
    (upstream : Except String (Nat × List Char)) (token : String) :
    Except String (Option ACLToken) × Bool :=
  if token = "" then (.ok none, false)
  else
    match upstream with
    | .error e => (.error e, true)
    | .ok (status, body) =>
      if status ≠ 200 then (.error ("unexpected status code: " ++ toString status), true)
      else
        match aclDec body with
        | none => (.error "acl token decode error", true)
        | some tok => (.ok (some tok), true)

/-- The context-building prologue of the proxy handler in `NewProxyHandler`:
token resolution is attempted only when the pipeline's resolve-token flag is
set; a resolution failure is logged (second component) and leaves
`accessorID`/`tokenInfo` unset; the handler then proceeds with the returned
context in every case. -/
def buildRequestContext (aclDec : List Char → Option ACLToken) (resolveToken : Bool)
    (clientIP token : String) (upstream : Except String (Nat × List Char)) :
    RequestContext × Bool :=
  if resolveToken then
    match (resolveTokenAccessor aclDec upstream token).1 with
    | .error _ => (⟨clientIP, "", none⟩, true)
    | .ok none => (⟨clientIP, "", none⟩, false)
    | .ok (some t) => (⟨clientIP, t.AccessorID, some t⟩, false)
  else (⟨clientIP, "", none⟩, false)

/-! ## Concrete stages and codecs used by witnesses -/

/-- A mutator that keeps the job and warns `mw`. -/
def c1WarnMutator : Mutator := fun p => (some p.job, ["mw"], none)

/-- A validator that warns `vw`. -/
def c1WarnValidator : Validator := fun _ => (["vw"], none)

/-- A mutator that fails hard. -/
def c3FailingMutator : Mutator := fun _ => (none, [], some (.plain "boom"))

/-- A validator that rejects every job. -/
def c4RejectValidator : Validator := fun _ => ([], some (.plain "forbidden image"))

/-- A validator that fails with a webhook-style multierror. -/
def c3MultiErrValidator : Validator := fun _ => ([], some (.multi ["bad"]))

/-- The identity instance of the gzip round-trip model. -/
def idGzipCodec : GzipCodec := ⟨fun b => b, fun b => some b, fun _ => rfl⟩

/-- A concrete register-response codec: the response is its warning string. -/
def registerRespCodec : Codec RegisterResponse :=
  ⟨fun r => r.Warnings.data, fun l => some ⟨⟨l⟩⟩, fun _ => rfl⟩

/-- A concrete plan-response codec: the response is its warning string. -/
def planRespCodec : Codec PlanResponse :=
  ⟨fun r => r.Warnings.data, fun l => some ⟨⟨l⟩⟩, fun _ => rfl⟩

/-! ## Theorems: warning merge (C6) -/

theorem mem_bulletConcat_infix (es : List String) (w : String) (hw : w ∈ es) :
    w.data <:+: (bulletConcat es).data := by
  induction es with
  | nil => cases hw
  | cons e rest ih =>
    rcases List.mem_cons.mp hw with rfl | hmem
    · exact ⟨"\n\n* ".data, (bulletConcat rest).data, by
        simp [bulletConcat, String.data_append]⟩
    · obtain ⟨s, t, hst⟩ := ih hmem
      exact ⟨("\n\n* " ++ e).data ++ s, t, by
        simp [bulletConcat, String.data_append, ← hst, List.append_assoc]⟩

theorem mem_warningsFormatter_infix (es : List String) (w : String) (hw : w ∈ es) :
    w.data <:+: (warningsFormatter es).data := by
  obtain ⟨s, t, hst⟩ := mem_bulletConcat_infix es w hw
  exact ⟨(toString es.length ++ " warning(s):").data ++ s, t, by
    simp [warningsFormatter, String.data_append, ← hst, List.append_assoc]⟩

/-- C6: `buildFullWarningMsg` serializes, in the upstream's multi-warning
format, exactly the sequence consisting of the upstream warning string (one
leading entry when non-empty, nothing when empty) followed by the local
warnings in order, and every entry of that sequence appears (is an infix)
in the resulting string, so no warning is suppressed. -/
theorem buildFullWarningMsg_entry_order (up : String) (ws : List String) :
    buildFullWarningMsg up ws =
      warningsFormatter ((if up = "" then [] else [up]) ++ ws) ∧
    ∀ w ∈ (if up = "" then [] else [up]) ++ ws,
      w.data <:+: (buildFullWarningMsg up ws).data := by
  have heq : buildFullWarningMsg up ws =
      warningsFormatter ((if up = "" then [] else [up]) ++ ws) := by
    by_cases h : up = "" <;>
      simp [buildFullWarningMsg, MergeMultierrorWarnings, h]
  refine ⟨heq, fun w hw => ?_⟩
  rw [heq]
  exact mem_warningsFormatter_infix _ w hw

theorem buildFullWarningMsg_entry_order_witness :
    "w1".data <:+: (buildFullWarningMsg "existing" ["w1"]).data :=
  (buildFullWarningMsg_entry_order "existing" ["w1"]).2 "w1" (by simp)

/-! ## Theorems: route classifier (C5) -/

theorem jobNameMatch_iff (s : List Char) :
    jobNameMatch s = true ↔
      ∃ a b, s = a ++ b ∧ a ≠ [] ∧ a.all jobNameHeadClass = true ∧
        b.all jobNameTailClass = true := by
  unfold jobNameMatch
  rw [List.any_eq_true]
  constructor
  · rintro ⟨i, hi, h⟩
    rw [List.mem_range] at hi
    simp only [Bool.and_eq_true, decide_eq_true_eq] at h
    obtain ⟨⟨hpos, hhead⟩, htail⟩ := h
    refine ⟨s.take i, s.drop i, (List.take_append_drop i s).symm, ?_, hhead, htail⟩
    intro hnil
    have hlen : (s.take i).length = 0 := by rw [hnil]; rfl
    rw [List.length_take] at hlen
    omega
  · rintro ⟨a, b, rfl, hne, hhead, htail⟩
    refine ⟨a.length, ?_, ?_⟩
    · rw [List.mem_range, List.length_append]
      omega
    · simp only [Bool.and_eq_true, decide_eq_true_eq]
      refine ⟨⟨?_, ?_⟩, ?_⟩
      · cases a with
        | nil => exact absurd rfl hne
        | cons _ _ => simp
      · rw [List.take_left]
        exact hhead
      · rw [List.drop_left]
        exact htail

theorem jobPathRegexMatch_iff (p : String) :
    jobPathRegexMatch p = true ↔
      ∃ a b, p.data = "/v1/job/".data ++ a ++ b ∧ a ≠ [] ∧
        a.all jobNameHeadClass = true ∧ b.all jobNameTailClass = true := by
  unfold jobPathRegexMatch
  rw [Bool.and_eq_true, List.isPrefixOf_iff_prefix]
  constructor
  · rintro ⟨⟨t, ht⟩, hm⟩
    have hdrop : p.data.drop 8 = t := by
      rw [← ht]
      exact List.drop_left "/v1/job/".data t
    rw [hdrop] at hm
    obtain ⟨a, b, rfl, hne, hha, htb⟩ := (jobNameMatch_iff t).mp hm
    exact ⟨a, b, by rw [← ht, List.append_assoc], hne, hha, htb⟩
  · rintro ⟨a, b, habs, hne, hha, htb⟩
    constructor
    · exact ⟨a ++ b, by rw [habs, List.append_assoc]⟩
    · have hdrop : p.data.drop 8 = a ++ b := by
        rw [habs, List.append_assoc]
        exact List.drop_left "/v1/job/".data (a ++ b)
      rw [hdrop]
      exact (jobNameMatch_iff _).mpr ⟨a, b, rfl, hne, hha, htb⟩

theorem jobPlanPathRegexMatch_iff (p : String) :
    jobPlanPathRegexMatch p = true ↔
      ∃ a b, p.data = "/v1/job/".data ++ a ++ b ++ "/plan".data ∧ a ≠ [] ∧
        a.all jobNameHeadClass = true ∧ b.all jobNameTailClass = true := by
  unfold jobPlanPathRegexMatch
  rw [Bool.and_eq_true, List.isPrefixOf_iff_prefix]
  constructor
  · rintro ⟨⟨t, ht⟩, hm⟩
    rw [List.any_eq_true] at hm
    obtain ⟨i, _, h⟩ := hm
    simp only [Bool.and_eq_true, decide_eq_true_eq] at h
    obtain ⟨hname, hplan⟩ := h
    have hdrop : p.data.drop 8 = t := by
      rw [← ht]
      exact List.drop_left "/v1/job/".data t
    rw [hdrop] at hname hplan
    obtain ⟨a, b, hab, hne, hha, htb⟩ := (jobNameMatch_iff _).mp hname
    refine ⟨a, b, ?_, hne, hha, htb⟩
    have hsplit : t = t.take i ++ t.drop i := (List.take_append_drop i t).symm
    rw [← ht, hsplit, hab, hplan]
    simp [List.append_assoc]
  · rintro ⟨a, b, habs, hne, hha, htb⟩
    constructor
    · exact ⟨a ++ b ++ "/plan".data, by rw [habs]; simp [List.append_assoc]⟩
    · rw [List.any_eq_true]
      have hdrop : p.data.drop 8 = (a ++ b) ++ "/plan".data := by
        rw [habs]
        have : "/v1/job/".data ++ a ++ b ++ "/plan".data =
            "/v1/job/".data ++ ((a ++ b) ++ "/plan".data) := by
          simp [List.append_assoc]
        rw [this]
        exact List.drop_left "/v1/job/".data ((a ++ b) ++ "/plan".data)
      refine ⟨(a ++ b).length, ?_, ?_⟩
      · rw [List.mem_range, hdrop]
        simp only [List.length_append]
        omega
      · simp only [Bool.and_eq_true, decide_eq_true_eq]
        constructor
        · rw [hdrop, List.take_left]
          exact (jobNameMatch_iff _).mpr ⟨a, b, rfl, hne, hha, htb⟩
        · rw [hdrop, List.drop_left]

/-- C5 (counterexample): the method-and-path pair `PUT /v1/job/a1B` matches
the claim's rule (one letter, then letters, digits and hyphens in any order)
but the code's `isRegister` rejects it, because the code's second character
class `[a-z-Z0-9\-]` contains no uppercase letter other than `Z`. -/
theorem isRegister_claim_counterexample :
    claimIsRegister "PUT" "/v1/job/a1B" = true ∧
      isRegister "PUT" "/v1/job/a1B" = false := by decide

/-- C5 (amended): `isRegister` holds exactly of PUT/POST requests whose path
is `/v1/jobs` or decomposes as `/v1/job/` followed by a non-empty block of
ASCII letters and then characters drawn from lowercase letters, `Z`, digits
and hyphen; `isPlan` holds exactly of PUT/POST requests whose path is such a
job path followed by `/plan`. -/
theorem isRegister_isPlan_characterization (m p : String) :
    (isRegister m p = true ↔
      (m = "PUT" ∨ m = "POST") ∧
        (p = "/v1/jobs" ∨ ∃ a b, p.data = "/v1/job/".data ++ a ++ b ∧ a ≠ [] ∧
          a.all jobNameHeadClass = true ∧ b.all jobNameTailClass = true)) ∧
    (isPlan m p = true ↔
      (m = "PUT" ∨ m = "POST") ∧
        ∃ a b, p.data = "/v1/job/".data ++ a ++ b ++ "/plan".data ∧ a ≠ [] ∧
          a.all jobNameHeadClass = true ∧ b.all jobNameTailClass = true) := by
  constructor
  · unfold isRegister isCreate isUpdate
    rw [← jobPathRegexMatch_iff]
    constructor
    · intro h
      simp only [Bool.or_eq_true, Bool.and_eq_true, beq_iff_eq] at h
      rcases h with ⟨hm, hp⟩ | ⟨hm, hp⟩
      · exact ⟨hm, Or.inl hp⟩
      · exact ⟨hm, Or.inr hp⟩
    · rintro ⟨hm, hp⟩
      simp only [Bool.or_eq_true, Bool.and_eq_true, beq_iff_eq]
      rcases hp with hp | hp
      · exact Or.inl ⟨hm, hp⟩
      · exact Or.inr ⟨hm, hp⟩
  · unfold isPlan
    rw [← jobPlanPathRegexMatch_iff, Bool.and_eq_true, Bool.or_eq_true,
      beq_iff_eq, beq_iff_eq]

/-! ## Theorems: the JSON-Patch webhook mutator (C2) -/

/-- C2: the code is at odds with the claim (and with the spec's scenario 4).
On input job `{"ID":"app"}` and webhook patch
`[{"op":"add","path":"/Meta","value":{"foo":"bar"}}]`, `Mutate` applies the
patch to the JSON encoding of the whole payload (the document with the job
nested under `job`), then unmarshals the patched payload document as a Job:
the returned job has `Meta` set but its `ID` lost, not
`{"ID":"app","Meta":{"foo":"bar"}}`. -/
theorem jsonPatchMutate_drops_job_id :
    JsonPatchWebhookMutator.Mutate
        ⟨[⟨"add", ["Meta"], .obj [("foo", .str "bar")]⟩], [], []⟩
        (.obj [("ID", .str "app")]) none =
      .ok (⟨none, some [("foo", "bar")]⟩, []) ∧
    (⟨none, some [("foo", "bar")]⟩ : ApiJob) ≠ ⟨some "app", some [("foo", "bar")]⟩ :=
  ⟨rfl, by decide⟩

/-! ## Theorems: validate-route warning order (C1) -/

/-- C1 (counterexample): with one mutator warning `mw` and one validator
warning `vw`, the list stashed under *warnings* is `["vw", "mw"]` — validator
warnings first — not the claimed mutator-first order `["mw", "vw"]`. -/
theorem handleValidate_warning_order_counterexample :
    handleValidate [c1WarnMutator] [c1WarnValidator] (some (.obj [])) none =
      .ok (.obj [], ⟨some ["vw", "mw"], none⟩) ∧
    (["vw", "mw"] : List String) ≠ ["mw", "vw"] :=
  ⟨rfl, by decide⟩

/-- C1 (amended): on the Validate route, when both phases produce warnings,
the stashed list is the order-preserving concatenation with all validator
warnings first, followed by all mutator warnings
(`append(validateWarnings, mutateWarnings...)` in the source). -/
theorem handleValidate_warning_order (ms : List Mutator) (vs : List Validator)
    (job j2 : Json) (reqCtx : Option RequestContext) (mws vws : List String)
    (verr : Option GoErr)
    (hm : AdmissionMutators ms ⟨job, reqCtx⟩ = (j2, mws, none))
    (hv : AdmissionValidators vs ⟨j2, reqCtx⟩ = (vws, verr))
    (hmw : mws ≠ []) (hvw : vws ≠ []) :
    handleValidate ms vs (some job) reqCtx = .ok (j2, ⟨some (vws ++ mws), verr⟩) := by
  have hlen : (vws ++ mws).length > 0 := by
    cases vws with
    | nil => exact absurd rfl hvw
    | cons a l => simp
  simp only [handleValidate, hm, hv, if_pos hlen]

theorem handleValidate_warning_order_witness :
    handleValidate [c1WarnMutator] [c1WarnValidator] (some (.obj [])) none =
      .ok (.obj [], ⟨some (["vw"] ++ ["mw"]), none⟩) :=
  handleValidate_warning_order [c1WarnMutator] [c1WarnValidator] (.obj []) (.obj [])
    none ["mw"] ["vw"] none rfl rfl (by decide) (by decide)

/-! ## Theorems: validate-route hard errors (C3) -/

/-- C3 (counterexample): a *mutator* hard error on the Validate route is not
captured in-band — the proxy replies 500 with the error text and no request
is forwarded upstream, contrary to the claim that every stage hard error
still forwards. -/
theorem processValidate_mutator_error_counterexample :
    processValidate [c3FailingMutator] [] (some (.obj [])) none ⟨"", [], ""⟩ =
      .errorResponse 500 "boom" := rfl

/-- C3 (amended): when the mutators succeed and a *validator* returns a hard
(multi-)error, the request is still forwarded upstream and the rewritten
response carries the combined error text in `.Error` and each constituent
sub-error string in `.ValidationErrors` (warnings are merged when present). -/
theorem processValidate_validator_error (ms : List Mutator) (vs : List Validator)
    (job j2 : Json) (reqCtx : Option RequestContext) (mws vws es : List String)
    (up : ValidateResponse)
    (hm : AdmissionMutators ms ⟨job, reqCtx⟩ = (j2, mws, none))
    (hv : AdmissionValidators vs ⟨j2, reqCtx⟩ = (vws, some (.multi es))) :
    processValidate ms vs (some job) reqCtx up =
      .forwarded (.rewritten
        { Warnings :=
            if (vws ++ mws).length > 0 then buildFullWarningMsg up.Warnings (vws ++ mws)
            else up.Warnings,
          ValidationErrors := es,
          Error := multierrorText es }) := by
  simp only [processValidate, handleValidate, hm, hv]
  by_cases h : 0 < vws.length ∨ 0 < mws.length
  · have h1 : 0 < (vws ++ mws).length := by
      rw [List.length_append]; omega
    simp [handleJobValdidateResponse, h, h1]
  · have h1 : ¬ 0 < (vws ++ mws).length := by
      rw [List.length_append]; omega
    simp [handleJobValdidateResponse, h, h1]

theorem processValidate_validator_error_witness :
    processValidate [] [c3MultiErrValidator] (some (.obj [])) none ⟨"", [], ""⟩ =
      .forwarded (.rewritten
        { Warnings := "", ValidationErrors := ["bad"], Error := multierrorText ["bad"] }) :=
  processValidate_validator_error [] [c3MultiErrValidator] (.obj []) (.obj []) none
    [] [] ["bad"] ⟨"", [], ""⟩ rfl rfl

/-! ## Theorems: register/plan hard errors (C4) -/

/-- C4: a pipeline hard error on the Register or Plan route is never
forwarded — the proxy replies HTTP 500 and the body carries the stage's error
text (wrapped by the handler's message). -/
theorem register_plan_hard_error (ms : List Mutator) (vs : List Validator)
    (job j : Json) (reqCtx : Option RequestContext) (ws : List String) (e : GoErr)
    (h : ApplyAdmissionControllers ms vs ⟨job, reqCtx⟩ = (j, ws, some e)) :
    processRegister ms vs (some job) reqCtx =
      .errorResponse 500 ("admission controllers send an error, returning error: " ++ e.text) ∧
    processPlan ms vs (some job) reqCtx =
      .errorResponse 500 ("admission controllers send an error, returning error: " ++ e.text) := by
  simp only [processRegister, processPlan, handleRegister, handlePlan, h, GoErr.text]
  exact ⟨trivial, trivial⟩

theorem register_plan_hard_error_witness :
    processRegister [] [c4RejectValidator] (some (.obj [])) none =
      .errorResponse 500
        ("admission controllers send an error, returning error: " ++
          (GoErr.plain "forbidden image").text) ∧
    processPlan [] [c4RejectValidator] (some (.obj [])) none =
      .errorResponse 500
        ("admission controllers send an error, returning error: " ++
          (GoErr.plain "forbidden image").text) :=
  register_plan_hard_error [] [c4RejectValidator] (.obj []) (.obj []) none []
    (.plain "forbidden image") rfl

/-! ## Theorems: gzip response round-trip (C7) -/

/-- C7: for a gzip-encoded upstream response whose body decompresses to the
encoding of the upstream envelope, the rewriter gunzips, decodes, merges the
warnings, re-encodes and re-gzips; the resulting body decompresses to the
modified JSON, and both the `Content-Length` header and the response
`ContentLength` equal the compressed byte count. -/
theorem handRegisterResponse_gzip_roundtrip (jc : Codec RegisterResponse)
    (gz : GzipCodec) (ws : List String) (resp : HttpResponse) (up : RegisterResponse)
    (hws : ws ≠ [])
    (henc : resp.contentEncoding = "gzip")
    (hbody : gz.decompress resp.body = some (jc.enc up)) :
    handRegisterResponse jc gz (some ws) resp =
      .ok (rewriteResponseGzip gz resp
        (jc.enc { up with Warnings := buildFullWarningMsg up.Warnings ws })) ∧
    gz.decompress (rewriteResponseGzip gz resp
        (jc.enc { up with Warnings := buildFullWarningMsg up.Warnings ws })).body =
      some (jc.enc { up with Warnings := buildFullWarningMsg up.Warnings ws }) ∧
    (rewriteResponseGzip gz resp
        (jc.enc { up with Warnings := buildFullWarningMsg up.Warnings ws })).contentLengthHeader =
      toString (rewriteResponseGzip gz resp
        (jc.enc { up with Warnings := buildFullWarningMsg up.Warnings ws })).body.length ∧
    (rewriteResponseGzip gz resp
        (jc.enc { up with Warnings := buildFullWarningMsg up.Warnings ws })).contentLength =
      ((rewriteResponseGzip gz resp
        (jc.enc { up with Warnings := buildFullWarningMsg up.Warnings ws })).body.length : Int) := by
  refine ⟨?_, ?_, ?_, ?_⟩
  · unfold handRegisterResponse checkIfGzipAndTransformReader
    simp [henc, hbody, jc.dec_enc]
  · simp [rewriteResponseGzip, gz.decompress_compress]
  · simp [rewriteResponseGzip]
  · simp [rewriteResponseGzip]

theorem handRegisterResponse_gzip_roundtrip_witness :
    handRegisterResponse registerRespCodec idGzipCodec (some ["w1"]) ⟨"gzip", "0", 0, []⟩ =
      .ok (rewriteResponseGzip idGzipCodec ⟨"gzip", "0", 0, []⟩
        (registerRespCodec.enc
          { RegisterResponse.mk "" with
            Warnings := buildFullWarningMsg (RegisterResponse.mk "").Warnings ["w1"] })) :=
  (handRegisterResponse_gzip_roundtrip registerRespCodec idGzipCodec ["w1"]
    ⟨"gzip", "0", 0, []⟩ ⟨""⟩ (by decide) rfl rfl).1

/-! ## Theorems: no-warning pass-through (C10) -/

/-- C10: when the pipeline stored no warnings on the scoped context, the
register and plan response rewriters return the upstream response unchanged —
body, content encoding and content length all pass through. -/
theorem response_passthrough_no_warnings (jc : Codec RegisterResponse)
    (pc : Codec PlanResponse) (gz : GzipCodec) (resp : HttpResponse) :
    handRegisterResponse jc gz none resp = .ok resp ∧
    handleJobPlanResponse pc gz none resp = .ok resp := by
  constructor
  · simp [handRegisterResponse]
  · simp [handleJobPlanResponse]

/-! ## Theorems: the webhook validator on errors (C9) -/

theorem foldl_multiAppend (l acc : List String) : l.foldl multiAppend acc = acc ++ l := by
  induction l generalizing acc with
  | nil => simp
  | cons a t ih => simp [multiAppend, ih, List.append_assoc]

/-- C9: a webhook-validator reply with a non-empty `errors` list yields a nil
warning list together with one aggregated multierror whose entries are the
reply's errors in reply order, and the reply's `warnings` are discarded (the
result does not depend on them). -/
theorem webhookValidator_errors_spec (reply : WebhookValidatorReply)
    (h : reply.errors ≠ []) :
    WebhookValidator.Validate reply = ([], some (.multi reply.errors)) ∧
    ∀ ws', WebhookValidator.Validate ⟨reply.errors, ws'⟩ =
      WebhookValidator.Validate reply := by
  have hlen : reply.errors.length > 0 := List.length_pos.mpr h
  constructor
  · simp [WebhookValidator.Validate, hlen, foldl_multiAppend]
  · intro ws'
    simp [WebhookValidator.Validate, hlen]

theorem webhookValidator_errors_spec_witness :
    WebhookValidator.Validate ⟨["bad"], ["w"]⟩ = ([], some (.multi ["bad"])) :=
  (webhookValidator_errors_spec ⟨["bad"], ["w"]⟩ (by decide)).1

/-! ## Theorems: token resolution (C8) -/

/-- C8: token resolution is attempted only when the resolve-token flag is set
(the context is the bare client IP otherwise); an empty `X-Nomad-Token`
issues no upstream call and resolves to no token; for a non-empty token the
resolution succeeds exactly when the upstream answers HTTP 200 with a
decodable body; and on any resolution failure the error is logged, the
accessor fields stay unset, and the handler still proceeds with that
context. -/
theorem tokenResolution_spec (aclDec : List Char → Option ACLToken)
    (ip token : String) (upstream : Except String (Nat × List Char)) :
    buildRequestContext aclDec false ip token upstream = (⟨ip, "", none⟩, false) ∧
    resolveTokenAccessor aclDec upstream "" = (.ok none, false) ∧
    (token ≠ "" →
      ((∃ t, (resolveTokenAccessor aclDec upstream token).1 = .ok (some t)) ↔
        ∃ body t, upstream = .ok (200, body) ∧ aclDec body = some t)) ∧
    (∀ e, (resolveTokenAccessor aclDec upstream token).1 = .error e →
      buildRequestContext aclDec true ip token upstream = (⟨ip, "", none⟩, true)) := by
  refine ⟨rfl, rfl, ?_, ?_⟩
  · intro htok
    unfold resolveTokenAccessor
    rw [if_neg htok]
    cases upstream with
    | error e => simp
    | ok sb =>
      obtain ⟨s, b⟩ := sb
      by_cases hs : s = 200
      · subst hs
        simp only [ne_eq, not_true_eq_false, if_false, ite_false]
        cases hd : aclDec b with
        | none => simp [hd]
        | some t => simp [hd]
      · simp [hs]
  · intro e he
    unfold buildRequestContext
    rw [if_pos rfl, he]

theorem tokenResolution_spec_witness :
    buildRequestContext (fun _ => none) true "10.0.0.1" "tok" (.error "boom") =
      (⟨"10.0.0.1", "", none⟩, true) :=
  (tokenResolution_spec (fun _ => none) "10.0.0.1" "tok" (.error "boom")).2.2.2 "boom" rfl

end Nacp
